import Mathlib

/-!
Shallow embedding of the eISCP receiver-control client
(`custom_components/onkyo-custom/media_player.py`): frame codec,
command registry translation, streaming buffer reassembly, reconnect
backoff and UDP discovery dedup, with theorems checking the
specification's claims against the embedded code.

Bytes are modelled as `Nat` values (each `< 256` where produced by the
code); Python strings are Lean `String`s; a Python function that can
raise is modelled as `Option`/`Except`, with `none`/`.error` marking the
raised exception.
-/

namespace Onkyo

/-! ## UTF-8 encoding and decoding (Python `str.encode` / `bytes.decode`) -/

/-- UTF-8 encoding of a single character (unicode scalar value). -/
def utf8EncodeChar (c : Char) : List Nat :=
  let n := c.toNat
  if n < 0x80 then [n]
  else if n < 0x800 then [0xC0 + n / 64, 0x80 + n % 64]
  else if n < 0x10000 then [0xE0 + n / 4096, 0x80 + n / 64 % 64, 0x80 + n % 64]
  else [0xF0 + n / 262144, 0x80 + n / 4096 % 64, 0x80 + n / 64 % 64, 0x80 + n % 64]

/-- UTF-8 encoding of a string, as Python's `s.encode("utf-8")`. -/
def utf8Encode (s : String) : List Nat :=
  (s.data.map utf8EncodeChar).flatten

/-- Is `b` a UTF-8 continuation byte (`0x80`–`0xBF`)? -/
def isCont (b : Nat) : Bool := 0x80 ≤ b && b ≤ 0xBF

/-- Decode one UTF-8 sequence from the front of the byte list: returns the
decoded character and the number of bytes consumed, or `none` if the bytes
do not start with a valid sequence (strict decoding, like Python's
`bytes.decode()` with default error handling). -/
def utf8DecodeOne : List Nat → Option (Char × Nat)
  | [] => none
  | b :: rest =>
    if b < 0x80 then some (Char.ofNat b, 1)
    else if 0xC2 ≤ b && b ≤ 0xDF then
      match rest with
      | b2 :: _ =>
        if isCont b2 then some (Char.ofNat ((b - 0xC0) * 64 + (b2 - 0x80)), 2) else none
      | _ => none
    else if 0xE0 ≤ b && b ≤ 0xEF then
      match rest with
      | b2 :: b3 :: _ =>
        let lo2 := if b = 0xE0 then 0xA0 else 0x80
        let hi2 := if b = 0xED then 0x9F else 0xBF
        if lo2 ≤ b2 && b2 ≤ hi2 && isCont b3 then
          some (Char.ofNat ((b - 0xE0) * 4096 + (b2 - 0x80) * 64 + (b3 - 0x80)), 3)
        else none
      | _ => none
    else if 0xF0 ≤ b && b ≤ 0xF4 then
      match rest with
      | b2 :: b3 :: b4 :: _ =>
        let lo2 := if b = 0xF0 then 0x90 else 0x80
        let hi2 := if b = 0xF4 then 0x8F else 0xBF
        if lo2 ≤ b2 && b2 ≤ hi2 && isCont b3 && isCont b4 then
          some (Char.ofNat ((b - 0xF0) * 262144 + (b2 - 0x80) * 4096 +
                            (b3 - 0x80) * 64 + (b4 - 0x80)), 4)
        else none
      | _ => none
    else none

/-- Strict UTF-8 decoding, driven by a step-count bound so the recursion
is structural; every step consumes at least one byte, so a bound of
`l.length` is never exhausted. -/
def utf8DecodeStrictAux : Nat → List Nat → Option (List Char)
  | _, [] => some []
  | 0, _ :: _ => none
  | fuel + 1, l =>
    match utf8DecodeOne l with
    | none => none
    | some (c, k) => (utf8DecodeStrictAux fuel (l.drop (max k 1))).map (c :: ·)

/-- Strict UTF-8 decoding of a byte list (Python `bytes.decode()`):
`none` when any invalid sequence is met (`UnicodeDecodeError`). -/
def utf8DecodeStrict (l : List Nat) : Option (List Char) :=
  utf8DecodeStrictAux l.length l

/-- Replacing UTF-8 decoding, with the same structural step-count bound:
an invalid byte yields the replacement character U+FFFD and decoding
resumes at the next byte. -/
def utf8DecodeReplaceAux : Nat → List Nat → List Char
  | _, [] => []
  | 0, _ :: _ => []
  | fuel + 1, l =>
    match utf8DecodeOne l with
    | none =>
      match l with
      | [] => []
      | _ :: rest => Char.ofNat 0xFFFD :: utf8DecodeReplaceAux fuel rest
    | some (c, k) => c :: utf8DecodeReplaceAux fuel (l.drop (max k 1))

/-- Replacing UTF-8 decoding of a byte list (Python
`bytes.decode(errors='replace')`). -/
def utf8DecodeReplace (l : List Nat) : List Char :=
  utf8DecodeReplaceAux l.length l

/-- Strict decode producing a `String`. -/
def utf8DecodeStrictStr (l : List Nat) : Option String :=
  (utf8DecodeStrict l).map String.mk

/-! ## ISCPMessage (inner text framing) -/

/-- `ISCPMessage.__str__`: `"!1{}\r".format(self.data)` — start character,
destination unit type `1`, the command text, and a carriage return. -/
def ISCPMessage.str (data : String) : String :=
  "!1" ++ data ++ "\r"

/-- Python's negative indexing `l[-k]` for `k ≥ 1`; `none` models `IndexError`. -/
def negGet (l : List Char) (k : Nat) : Option Char :=
  if 1 ≤ k ∧ k ≤ l.length then l.get? (l.length - k) else none

/-- The magnitude of the `eof_offset` computed by `ISCPMessage.parse`
(`-1`, then decremented past at most two trailing terminators): given the
last character `c1`, it is 2 or 3 when `c1` is CR/LF (depending on the
character before it), else 1. -/
def eofOffsetK (l : List Char) (c1 : Char) : Nat :=
  if c1 = '\n' ∨ c1 = '\r' then
    match negGet l 2 with
    | some c2 => if c2 = '\n' ∨ c2 = '\r' then 3 else 2
    | none => 2
  else 1

/-- `ISCPMessage.parse`: requires the `"!1"` prefix, strips one or two
trailing terminator characters (CR/LF), then requires the EOF marker
`"\x1a"` at the computed offset and returns the text between the prefix
and the EOF marker.  `none` models a failed `assert` or an `IndexError`. -/
def ISCPMessage.parse (data : String) : Option String :=
  if data.data.take 2 = ['!', '1'] then
    match negGet data.data 1 with
    | none => none
    | some c1 =>
      match negGet data.data (eofOffsetK data.data c1) with
      | some e =>
        if e = '\x1a' then
          some (String.mk ((data.data.take (data.data.length - eofOffsetK data.data c1)).drop 2))
        else none
      | none => none
  else none

/-! ## eISCPPacket (binary header framing) -/

/-- Big-endian packing of a 32-bit unsigned value (`struct.pack "I"`);
callers keep the value below `2 ^ 32`, where `struct.pack` would raise. -/
def u32be (n : Nat) : List Nat :=
  [n / 2 ^ 24 % 256, n / 2 ^ 16 % 256, n / 2 ^ 8 % 256, n % 256]

/-- Big-endian unpacking of four bytes. -/
def parseU32be (b0 b1 b2 b3 : Nat) : Nat :=
  b0 * 2 ^ 24 + b1 * 2 ^ 16 + b2 * 2 ^ 8 + b3

/-- The parsed 16-byte eISCP header. -/
structure Header where
  magic : String
  header_size : Nat
  data_size : Nat
  version : Int
  reserved : String
deriving DecidableEq, Repr

/-- `eISCPPacket.__init__` / `get_raw`: the 16-byte header — magic
`b"ISCP"`, header size 16, data size `len(iscp_message)` (the Python
`str` length, i.e. a character count), version 1, three reserved zero
bytes — followed by the UTF-8 encoded message. -/
def eISCPPacket.bytes (iscp_message : String) : List Nat :=
  [0x49, 0x53, 0x43, 0x50] ++ u32be 16 ++ u32be iscp_message.length ++
    [0x01] ++ [0x00, 0x00, 0x00] ++ utf8Encode iscp_message

/-- `eISCPPacket.parse_header`: requires exactly 16 bytes, decodes the
magic and reserved fields, and requires magic `"ISCP"` and header size 16.
`none` models a failed `assert` or a decode error. -/
def eISCPPacket.parse_header (bytes : List Nat) : Option Header :=
  match bytes with
  | [m0, m1, m2, m3, h0, h1, h2, h3, d0, d1, d2, d3, v, r0, r1, r2] =>
    match utf8DecodeStrictStr [m0, m1, m2, m3], utf8DecodeStrictStr [r0, r1, r2] with
    | some magic, some reserved =>
      let header_size := parseU32be h0 h1 h2 h3
      let data_size := parseU32be d0 d1 d2 d3
      let version : Int := if v < 128 then (v : Int) else (v : Int) - 256
      if magic = "ISCP" ∧ header_size = 16 then
        some ⟨magic, header_size, data_size, version, reserved⟩
      else none
    | _, _ => none
  | _ => none

/-- `eISCPPacket.parse`: parse the header, decode `data_size` bytes after
the header with replacement of invalid sequences, and require the decoded
length to equal `data_size`. -/
def eISCPPacket.parse (bytes : List Nat) : Option String :=
  match eISCPPacket.parse_header (bytes.take 16) with
  | none => none
  | some h =>
    let data := utf8DecodeReplace ((bytes.drop h.header_size).take h.data_size)
    if data.length = h.data_size then some (String.mk data) else none

/-- `command_to_packet`: wrap a command in an `ISCPMessage` and an
`eISCPPacket` and return the raw bytes. -/
def command_to_packet (command : String) : List Nat :=
  eISCPPacket.bytes (ISCPMessage.str command)

/-! ## Command registry data model -/

/-- Modelled from the spec: the source constructs `ValueRange(min, max)`
values and tests `int(argument) in possible_arg`, but the `ValueRange`
class itself is not present in the repository.  Per the spec, some command
values "are not discrete codes but numeric intervals (min, max)" and
resolution takes "the first range containing the integer value", so the
membership test is inclusive interval containment. -/
structure ValueRange where
  minimum : Int
  maximum : Int
deriving DecidableEq, Repr

/-- Modelled from the spec: `int(argument) in ValueRange(min, max)` is
inclusive containment `min ≤ v ≤ max`. -/
def ValueRange.containsI (r : ValueRange) (v : Int) : Bool :=
  decide (r.minimum ≤ v) && decide (v ≤ r.maximum)

/-- A key of a `COMMANDS[zone][mnemonic]["values"]` dict: a wire-code
string or a numeric interval written as a tuple in the source. -/
inductive CVKey
  | str (s : String)
  | pair (lo hi : Int)
deriving DecidableEq, Repr

/-- A `"name"` field of a `COMMANDS` value: a string, a tuple of aliases,
or `None`. -/
inductive NameV
  | str (s : String)
  | tup (l : List String)
  | noneV
deriving DecidableEq, Repr

/-- One `COMMANDS[zone][mnemonic]` entry (the `description` fields are
never read by the translation code and are omitted). -/
structure CmdEntry where
  values : List (CVKey × NameV)
  name : String
deriving DecidableEq, Repr

/-- One key/value pair of a `VALUE_MAPPINGS[zone][mnemonic]` dict: a human
alias mapping to its wire code, or a `ValueRange` key (whose dict value,
the bare `(min, max)` tuple, is never read by the code). -/
inductive VMEntry
  | alias (key val : String)
  | range (r : ValueRange)
deriving DecidableEq, Repr

/-- The static translation tables: `COMMANDS`, `COMMAND_MAPPINGS` and
`VALUE_MAPPINGS`, as insertion-ordered association lists. -/
structure Registry where
  commands : List (String × List (String × CmdEntry))
  commandMappings : List (String × List (String × String))
  valueMappings : List (String × List (String × List VMEntry))

/-- Dict lookup by string key (`d[k]` / `d.get(k)`). -/
def aget (k : String) : List (String × α) → Option α
  | [] => none
  | (k', v) :: rest => if k' = k then some v else aget k rest

/-- `ZONE_MAPPINGS = {'': 'main', None: 'main'}`; keys are the empty
string or Python `None` (modelled by `Option String`). -/
def ZONE_MAPPINGS : List (Option String × String) :=
  [(some "", "main"), (none, "main")]

/-- `ZONE_MAPPINGS.get(zone, zone)`: the mapped group, or `zone` itself
when `zone` is not a key. -/
def zoneMappingsGet (zone : Option String) : Option String :=
  match ZONE_MAPPINGS.find? (fun p => p.1 == zone) with
  | some p => some p.2
  | none => zone

/-- The restriction of the source's `COMMANDS` table to the zones (in
their source order: main, zone2, zone3, zone4, dock) and the command
entries exercised by the theorems in this file. -/
def COMMANDS : List (String × List (String × CmdEntry)) :=
  [("main",
    [("PWR", ⟨[(.str "00", .tup ["standby", "off"]),
               (.str "01", .str "on"),
               (.str "ALL", .str "standby-all"),
               (.str "QSTN", .str "query")], "system-power"⟩)]),
   ("zone2",
    [("ZPW", ⟨[(.str "00", .str "standby"),
               (.str "01", .str "on"),
               (.str "QSTN", .str "query")], "power"⟩),
     ("ZVL", ⟨[(.pair 0 200, .noneV),
               (.pair 0 100, .str "vol-0-100"),
               (.pair 0 80, .noneV),
               (.str "UP", .str "level-up"),
               (.str "DOWN", .str "level-down"),
               (.str "UP1", .str "level-up-1db-step"),
               (.str "DOWN1", .str "level-down-1db-step"),
               (.str "QSTN", .str "query")], "volume"⟩)]),
   ("zone3",
    [("PW3", ⟨[(.str "00", .str "standby"),
               (.str "01", .str "on"),
               (.str "QSTN", .str "query")], "power"⟩)]),
   ("zone4",
    [("PW4", ⟨[(.str "00", .str "standby"),
               (.str "01", .str "on"),
               (.str "QSTN", .str "query")], "power"⟩)]),
   ("dock",
    [("NTC", ⟨[(.str "PLAY", .str "play"),
               (.str "STOP", .str "stop"),
               (.str "PAUSE", .str "pause")], "network-usb"⟩)])]

/-- The restriction of the source's `COMMAND_MAPPINGS` table to the
entries exercised by the theorems in this file. -/
def COMMAND_MAPPINGS : List (String × List (String × String)) :=
  [("zone3", [("power", "PW3"), ("volume", "VL3")]),
   ("zone2", [("power", "ZPW"), ("volume", "ZVL")]),
   ("main", [("system-power", "PWR"), ("power", "PWR")]),
   ("zone4", [("power", "PW4")]),
   ("dock", [("network-usb", "NTC")])]

/-- The restriction of the source's `VALUE_MAPPINGS` table to the entries
exercised by the theorems in this file; the `zone2 → ZVL` dict is complete
and in source insertion order. -/
def VALUE_MAPPINGS : List (String × List (String × List VMEntry)) :=
  [("zone3", [("PW3", [.alias "standby" "00", .alias "on" "01", .alias "query" "QSTN"])]),
   ("zone2",
    [("ZPW", [.alias "standby" "00", .alias "on" "01", .alias "query" "QSTN"]),
     ("ZVL", [.alias "level-down" "DOWN",
              .alias "level-up-1db-step" "UP1",
              .alias "level-up" "UP",
              .alias "level-down-1db-step" "DOWN1",
              .range ⟨0, 80⟩,
              .range ⟨0, 200⟩,
              .alias "query" "QSTN",
              .range ⟨0, 100⟩])]),
   ("main",
    [("PWR", [.alias "standby" "00", .alias "on" "01",
              .alias "standby-all" "ALL", .alias "off" "00",
              .alias "query" "QSTN"])]),
   ("zone4", [("PW4", [.alias "standby" "00", .alias "on" "01", .alias "query" "QSTN"])]),
   ("dock", [("NTC", [.alias "play" "PLAY", .alias "stop" "STOP", .alias "pause" "PAUSE"])])]

/-- The embedded registry. -/
def registry : Registry :=
  ⟨COMMANDS, COMMAND_MAPPINGS, VALUE_MAPPINGS⟩

/-! ## Outbound translation: `command_to_iscp` -/

/-- The exceptions `command_to_iscp` can raise: the three `ValueError`s of
lines 228, 232 and 258, the "Need at least command and argument"
`ValueError`, and the uncaught `TypeError` / `IndexError` / `KeyError`
that escape when the arguments are absent or a table lookup fails outside
the guarded alias lookup. -/
inductive CmdError
  | invalidZone
  | invalidCommand
  | invalidArgument
  | needArgument
  | typeError
  | indexError
  | keyError
deriving DecidableEq, Repr

/-- Python whitespace (`str.strip` default set, ASCII part). -/
def isPySpace (c : Char) : Bool :=
  c = ' ' || c = '\t' || c = '\n' || c = '\r' || c = '\x0b' || c = '\x0c'

/-- Python `str.strip()`: remove leading and trailing whitespace. -/
def pyStrip (s : String) : String :=
  String.mk (((s.data.dropWhile isPySpace).reverse.dropWhile isPySpace).reverse)

/-- Python `str.lower()` (ASCII). -/
def pyLower (s : String) : String := String.mk (s.data.map Char.toLower)

/-- `norm = lambda s: s.strip().lower()`. -/
def norm (s : String) : String := pyLower (pyStrip s)

/-- `re.split` on a single-character class: split at every separator
occurrence, keeping empty pieces. -/
def splitAnyAux (seps : List Char) : List Char → List Char → List String
  | [], acc => [String.mk acc.reverse]
  | c :: rest, acc =>
    if seps.contains c then String.mk acc.reverse :: splitAnyAux seps rest []
    else splitAnyAux seps rest (c :: acc)

/-- `re.split` on a single-character class applied to a string. -/
def splitAny (seps : List Char) (s : String) : List String :=
  splitAnyAux seps s.data []

/-- `re.split(pattern, s, 1)` for a single-character class: split at the
first occurrence only.  Callers guarantee a separator occurs. -/
def splitFirst (seps : List Char) (s : String) : String × String :=
  let i := s.data.findIdx (fun c => seps.contains c)
  (String.mk (s.data.take i), String.mk (s.data.drop (i + 1)))

/-- The free-text parsing branch of `command_to_iscp` (entered when both
`arguments` and `zone` are `None`): split on `:`/`=` into command part and
argument list, or on `.`/space alone; default the zone to `"main"` when
the command part has a single token. -/
def parseFreeText (command : String) : Except CmdError (String × String × List String) :=
  if command.data.any (fun c => c = ':' ∨ c = '=') then
    let ba := splitFirst [':', '='] command
    let parts := (splitAny ['.', ' '] ba.1).map norm
    let args := (splitAny [' ', ','] ba.2).map norm
    match parts with
    | [z, c] => .ok (z, c, args)
    | _ => .ok ("main", parts.headD "", args)
  else
    let parts := (splitAny ['.', ' '] command).map norm
    if 3 ≤ parts.length then
      match parts with
      | z :: c :: _ => .ok (z, c, parts.drop 3)
      | _ => .error .needArgument
    else if parts.length = 2 then
      .ok ("main", parts.headD "", parts.drop 1)
    else
      .error .needArgument

/-- Python `str.isdigit()` for the ASCII arguments the tables use:
nonempty and all digits. -/
def pyIsdigit (s : String) : Bool :=
  !s.isEmpty && s.data.all Char.isDigit

/-- `int(argument)` for an `isdigit` string. -/
def pyToNat (s : String) : Nat :=
  s.data.foldl (fun acc c => acc * 10 + (c.toNat - 48)) 0

/-- A lowercase hexadecimal digit. -/
def hexDigitChar (n : Nat) : Char :=
  if n < 10 then Char.ofNat (48 + n) else Char.ofNat (97 + n - 10)

/-- Lowercase hexadecimal digits, driven by a step-count bound so the
recursion is structural; `n` itself always bounds the digit count. -/
def natToHexAux : Nat → Nat → List Char
  | 0, n => [hexDigitChar (n % 16)]
  | fuel + 1, n =>
    if n < 16 then [hexDigitChar n]
    else natToHexAux fuel (n / 16) ++ [hexDigitChar (n % 16)]

/-- Lowercase hexadecimal digits of `n`, most significant first
(`hex(n)` without the `0x` prefix). -/
def natToHex (n : Nat) : List Char :=
  natToHexAux n n

/-- `hex(int(argument))[2:].zfill(2).upper()`: uppercase hexadecimal,
zero-padded to at least two digits. -/
def pyHex (n : Nat) : String :=
  let s := natToHex n
  let s := if s.length < 2 then List.replicate (2 - s.length) '0' ++ s else s
  String.mk (s.map Char.toUpper)

/-- The guarded alias lookup `VALUE_MAPPINGS[group][prefix][argument]`
(its `KeyError` is caught). -/
def vmAliasGet (a : String) : List VMEntry → Option String
  | [] => none
  | .alias k v :: rest => if k = a then some v else vmAliasGet a rest
  | .range _ :: rest => vmAliasGet a rest

/-- The fallback scan over the value dict's keys in insertion order: a
purely numeric argument matches the first `ValueRange` containing it and
is hex-encoded; otherwise the scan falls through. -/
def vmScan (a : String) : List VMEntry → Option String
  | [] => none
  | .alias _ _ :: rest => vmScan a rest
  | .range r :: rest =>
    if pyIsdigit a && r.containsI (pyToNat a : Int) then some (pyHex (pyToNat a))
    else vmScan a rest

/-- Argument resolution (source lines 243–263): alias first, then the
range scan, else the "not a valid argument" `ValueError`; on success the
wire string is `prefix + value`. -/
def resolveArgCore (vmap : List VMEntry) (pre argument : String) : Except CmdError String :=
  match vmAliasGet argument vmap with
  | some v => .ok (pre ++ v)
  | none =>
    match vmScan argument vmap with
    | some v => .ok (pre ++ v)
    | none => .error .invalidArgument

/-- The argument part of the resolution (source lines 241–263):
`argument = arguments[0]` — a missing/empty argument list raises — then
the `VALUE_MAPPINGS[group][prefix]` lookups and the argument resolution.
Only the head of the argument list is ever read. -/
def resolveArgs (reg : Registry) (g pre : String) :
    Option (List String) → Except CmdError String
  | none => .error .typeError
  | some [] => .error .indexError
  | some (argument :: _) =>
    match aget g reg.valueMappings with
    | none => .error .keyError
    | some vmGroup =>
      match aget pre vmGroup with
      | none => .error .keyError
      | some vmap => resolveArgCore vmap pre argument

/-- The resolution core of `command_to_iscp` after the free-text parse
(source lines 226–263): validate the zone against `COMMANDS` (the raw
`zone`, not the mapped `group`), resolve the command to its mnemonic via
`COMMAND_MAPPINGS[group]` falling back to the command itself, validate it
against `COMMANDS[group]`, then resolve the first argument. -/
def resolve (reg : Registry) (zone : Option String) (command : String)
    (arguments : Option (List String)) : Except CmdError String :=
  let group := zoneMappingsGet zone
  match zone with
  | none => .error .invalidZone
  | some z =>
    if (aget z reg.commands).isNone then .error .invalidZone
    else
      match group with
      | none => .error .keyError
      | some g =>
        match aget g reg.commandMappings with
        | none => .error .keyError
        | some cm =>
          let pre := (aget command cm).getD command
          match aget g reg.commands with
          | none => .error .keyError
          | some groupCmds =>
            if (aget pre groupCmds).isNone then .error .invalidCommand
            else resolveArgs reg g pre arguments

/-- `command_to_iscp(command, arguments=None, zone=None)`: parse the
free-text form when both `arguments` and `zone` are absent, then resolve. -/
def command_to_iscp (reg : Registry) (command : String)
    (arguments : Option (List String)) (zone : Option String) : Except CmdError String :=
  match arguments, zone with
  | none, none =>
    match parseFreeText command with
    | .error e => .error e
    | .ok (z, c, args) => resolve reg (some z) c (some args)
  | arguments, zone => resolve reg zone command arguments

/-! ## Inbound translation: `iscp_to_command` -/

/-- A decoded update value: a canonical name, a tuple, a hex-parsed
integer, or the raw remainder. -/
inductive IValue
  | str (s : String)
  | tup (l : List String)
  | num (n : Int)
deriving DecidableEq, Repr

/-- The `"name"` handling of `iscp_to_command`: a string name containing a
comma is split into a tuple; a `None` name or a tuple name containing a
bare `","` element raises (modelled as `none`). -/
def nameToValue : NameV → Option IValue
  | .str s => some (if s.data.contains ',' then .tup (splitAny [','] s) else .str s)
  | .tup l => if l.contains "," then none else some (.tup l)
  | .noneV => none

/-- Lookup of the wire remainder among a command's declared values:
only string keys can match (interval keys are tuples). -/
def cvGet (a : String) : List (CVKey × NameV) → Option NameV
  | [] => none
  | (.str k, nm) :: rest => if k = a then some nm else cvGet a rest
  | (.pair _ _, _) :: rest => cvGet a rest

/-- Is `c` a hexadecimal digit (either case)? -/
def isHexDigitCI (c : Char) : Bool :=
  c.isDigit || ('a' ≤ c && c ≤ 'f') || ('A' ≤ c && c ≤ 'F')

/-- `re.match("[+-]?[0-9a-f]+$", args, re.IGNORECASE)`: optional sign then
one or more hex digits; `$` also matches before one trailing newline. -/
def hexMatch (s : String) : Bool :=
  let l := if s.data.getLast? = some '\n' then s.data.dropLast else s.data
  let l := match l with
    | '+' :: r => r
    | '-' :: r => r
    | r => r
  !l.isEmpty && l.all isHexDigitCI

/-- Numeric value of a hex digit. -/
def hexCharVal (c : Char) : Nat :=
  if c.isDigit then c.toNat - 48
  else if 'a' ≤ c && c ≤ 'f' then c.toNat - 87
  else c.toNat - 55

/-- `int(s, 16)` for a string accepted by `hexMatch`. -/
def hexVal (s : String) : Int :=
  let l := if s.data.getLast? = some '\n' then s.data.dropLast else s.data
  match l with
  | '-' :: r => -(r.foldl (fun acc c => acc * 16 + hexCharVal c) 0 : Nat)
  | '+' :: r => (r.foldl (fun acc c => acc * 16 + hexCharVal c) 0 : Nat)
  | r => (r.foldl (fun acc c => acc * 16 + hexCharVal c) 0 : Nat)

/-- The zone scan of `iscp_to_command`: the first three characters of the
message are the mnemonic, the rest the argument; the first zone whose
command table holds the mnemonic decides the result. -/
def iscp_to_command_aux (msg : String) :
    List (String × List (String × CmdEntry)) → Option (String × String × IValue)
  | [] => none
  | (zone, zoneCmds) :: rest =>
    let command := String.mk (msg.data.take 3)
    let args := String.mk (msg.data.drop 3)
    match aget command zoneCmds with
    | none => iscp_to_command_aux msg rest
    | some entry =>
      match cvGet args entry.values with
      | some nm => (nameToValue nm).map (fun v => (zone, entry.name, v))
      | none =>
        if hexMatch args then some (zone, entry.name, .num (hexVal args))
        else some (zone, entry.name,
          if args.data.contains ',' then .tup (splitAny [','] args) else .str args)

/-- `iscp_to_command`: translate a wire string into
`(zone, canonical command name, value)`; `none` models the
"Cannot convert ISCP message" `ValueError`. -/
def iscp_to_command (reg : Registry) (msg : String) : Option (String × String × IValue) :=
  iscp_to_command_aux msg reg.commands

/-! ## Protocol handler: `AVR._assemble_buffer` -/

/-- An update event `(zone, command, value)` delivered to the listener. -/
abbrev Update := String × String × IValue

/-- The outcome of one `_assemble_buffer` run: the update events emitted
(in order), the number of per-frame decode errors logged by the guarded
`try`, whether an uncaught exception escaped, and the final receive
buffer. -/
structure AsmResult where
  events : List Update
  errors : Nat
  raised : Bool
  buffer : List Nat
deriving DecidableEq, Repr

/-- Decoding of one extracted frame body (source line 413):
`iscp_to_command(ISCPMessage.parse(data.decode()))`; any failure is the
exception caught by the surrounding `try`. -/
def decodeFrame (reg : Registry) (data : List Nat) : Option Update :=
  match utf8DecodeStrictStr data with
  | none => none
  | some s =>
    match ISCPMessage.parse s with
    | none => none
    | some m => iscp_to_command reg m

/-- `_assemble_buffer`, driven by a step-count bound so the recursion is
structural; every recursion consumes at least 16 bytes, so a bound of
`buf.length` is never exhausted.  `parse_header` is called outside the
`try`, so its failure sets `raised` and stops processing with the buffer
unconsumed; a frame-body decode failure only increments `errors`. -/
def assemble_buffer_aux (reg : Registry) : Nat → List Nat → AsmResult
  | 0, buf => ⟨[], 0, false, buf⟩
  | fuel + 1, buf =>
    if 16 ≤ buf.length then
      match eISCPPacket.parse_header (buf.take 16) with
      | none => ⟨[], 0, true, buf⟩
      | some hd =>
        if hd.data_size ≤ buf.length - 16 then
          let data := (buf.drop 16).take hd.data_size
          let rest := buf.drop (16 + hd.data_size)
          let tail := if rest.length = 0 then (⟨[], 0, false, rest⟩ : AsmResult)
                      else assemble_buffer_aux reg fuel rest
          match decodeFrame reg data with
          | some m => ⟨m :: tail.events, tail.errors, tail.raised, tail.buffer⟩
          | none => ⟨tail.events, tail.errors + 1, tail.raised, tail.buffer⟩
        else ⟨[], 0, false, buf⟩
    else ⟨[], 0, false, buf⟩

/-- `AVR._assemble_buffer` applied to the receive buffer. -/
def assemble_buffer (reg : Registry) (buf : List Nat) : AsmResult :=
  assemble_buffer_aux reg buf.length buf

/-! ## Connection manager: reconnect backoff -/

/-- `Connection._increase_retry_interval`:
`min(self._max_retry_interval, 1.5 * self._retry_interval)`.  All values
reached from the initial interval 1 are dyadic rationals represented
exactly by the source's floats, so `ℚ` models the arithmetic faithfully. -/
def increase_retry_interval (maxRetryInterval r : ℚ) : ℚ :=
  min maxRetryInterval (3 / 2 * r)

/-- One transition of the reconnect loop's retry interval:
`_reset_retry_interval` (to 1) on a successful connect,
`_increase_retry_interval` on a failed attempt. -/
def conn_step (maxRetryInterval r : ℚ) (success : Bool) : ℚ :=
  if success then 1 else increase_retry_interval maxRetryInterval r

/-- `Connection._reconnect` as a function of the sequence of
connect-attempt outcomes (`true` = connect succeeded): on failure the
interval is first increased, then slept; on success the interval is reset
to 1 and the loop returns.  Yields the slept intervals in order, the
final retry interval, and whether the loop exited connected. -/
def reconnect_sleeps (maxRetryInterval : ℚ) : ℚ → List Bool → List ℚ × ℚ × Bool
  | r, [] => ([], r, false)
  | _, true :: _ => ([], 1, true)
  | r, false :: rest =>
    let r' := increase_retry_interval maxRetryInterval r
    let t := reconnect_sleeps maxRetryInterval r' rest
    (r' :: t.1, t.2)

/-! ## Discovery engine -/

/-- The `groupdict` of a matched discovery reply. -/
structure DeviceInfo where
  device_category : String
  model_name : String
  iscp_port : String
  area_code : String
  identifier : String
deriving DecidableEq, Repr

/-- `\w`: a word character. -/
def isWordChar (c : Char) : Bool := c.isAlphanum || c = '_'

/-- The discovery-reply pattern
`!(\d)ECN([^/]*)/(\d{5})/(\w{2})/(.{0,12})`, matched at the start of the
stripped response (the greedy classes here never need backtracking). -/
def parseDiscoveryMatch : List Char → Option DeviceInfo
  | '!' :: c :: 'E' :: 'C' :: 'N' :: rest =>
    if c.isDigit then
      let model := rest.takeWhile (· ≠ '/')
      match rest.dropWhile (· ≠ '/') with
      | '/' :: r2 =>
        let port := r2.take 5
        if port.length = 5 && port.all Char.isDigit then
          match r2.drop 5 with
          | '/' :: a1 :: a2 :: r3 =>
            if isWordChar a1 && isWordChar a2 then
              match r3 with
              | '/' :: r4 =>
                let ident := (r4.takeWhile (· ≠ '\n')).take 12
                some ⟨String.mk [c], String.mk model, String.mk port,
                      String.mk [a1, a2], String.mk ident⟩
              | _ => none
            else none
          | _ => none
        else none
      | _ => none
    else none
  | _ => none

/-- `eISCPPacket.parse_info`: parse the packet, strip the payload, and
match the discovery-reply pattern; `none` when the shape does not match. -/
def eISCPPacket.parse_info (bytes : List Nat) : Option DeviceInfo :=
  match eISCPPacket.parse bytes with
  | none => none
  | some response => parseDiscoveryMatch (pyStrip response).data

/-- The arguments of one `discovered_callback` invocation. -/
structure Discovered where
  host : String
  port : Nat
  model_name : String
  identifier : String
deriving DecidableEq, Repr

/-- `DiscoveryProtocol.datagram_received`: parse the reply; if it parsed
and its identifier is not in this protocol instance's `discovered` list,
record the identifier and invoke the callback.  Returns the new
`discovered` list and the callback invocation, if any. -/
def datagram_received (st : List String) (data : List Nat) (addr : String × Nat) :
    List String × Option Discovered :=
  match eISCPPacket.parse_info data with
  | none => (st, none)
  | some info =>
    if info.identifier ∈ st then (st, none)
    else (st ++ [info.identifier],
          some ⟨addr.1, pyToNat info.iscp_port, info.model_name, info.identifier⟩)

/-- Deliver a sequence of `(datagram, source address)` events to one
`DiscoveryProtocol` instance, threading its `discovered` list; returns the
final list and the callback invocations in order. -/
def runProtocol : List String → List (List Nat × String × Nat) → List String × List Discovered
  | st, [] => (st, [])
  | st, (data, addr) :: rest =>
    let r := datagram_received st data addr
    let t := runProtocol r.1 rest
    (t.1, r.2.toList ++ t.2)

/-- One discovery session as `Connection.discover` builds it: one
`DiscoveryProtocol` per network interface, each with its own (initially
empty) `discovered` list.  Events are `(interface index, datagram, source
address)`; returns all callback invocations in order. -/
def runSession : List (List String) → List (Nat × List Nat × String × Nat) → List Discovered
  | _, [] => []
  | sts, (i, data, addr) :: rest =>
    let r := datagram_received (sts.getD i []) data addr
    r.2.toList ++ runSession (sts.set i r.1) rest

/-- The number of callback invocations reporting identifier `i`. -/
def countId (i : String) (cbs : List Discovered) : Nat :=
  (cbs.filter (fun d => d.identifier = i)).length

/-! ## Concrete example inputs -/

/-- A 21-byte frame whose header has a corrupt magic (`XSCP` instead of
`ISCP`) but is otherwise well formed, with a 5-byte body. -/
def badMagicFrame : List Nat :=
  [0x58, 0x53, 0x43, 0x50] ++ u32be 16 ++ u32be 5 ++ [0x01] ++ [0x00, 0x00, 0x00] ++
    [88, 88, 88, 88, 88]

/-- A complete well-formed frame carrying the receiver message
`"!1PWR01" + EOF`, which decodes to `("main", "system-power", "on")`. -/
def goodFrame : List Nat := eISCPPacket.bytes "!1PWR01\x1a"

/-- A 19-byte frame with a valid header whose 3-byte body `"XXX"` fails
`ISCPMessage.parse` (the guarded per-frame decode error). -/
def badBodyFrame : List Nat :=
  [0x49, 0x53, 0x43, 0x50] ++ u32be 16 ++ u32be 3 ++ [0x01] ++ [0x00, 0x00, 0x00] ++
    [88, 88, 88]

/-- A UDP discovery reply packet for model `TX-NR609`, port 60128, area
`DX`, identifier `0009B04AAAA1`. -/
def discoveryReply : List Nat :=
  eISCPPacket.bytes "!1ECNTX-NR609/60128/DX/0009B04AAAA1"

/-! # Theorems -/

/-! ## Helper lemmas on `negGet` (Python negative indexing) -/

theorem negGet_concat_one (l : List Char) (c : Char) : negGet (l ++ [c]) 1 = some c := by
  unfold negGet
  rw [if_pos]
  · simp [List.get?_concat_length]
  · simp

theorem negGet_concat_succ (l : List Char) (c : Char) (k : Nat) (hk : 1 ≤ k) :
    negGet (l ++ [c]) (k + 1) = negGet l k := by
  unfold negGet
  by_cases h : k ≤ l.length
  · rw [if_pos ⟨by omega, by simp; omega⟩, if_pos ⟨hk, h⟩]
    have hidx : (l ++ [c]).length - (k + 1) = l.length - k := by simp
    rw [hidx, List.get?_append (by omega)]
  · rw [if_neg (by simp; omega), if_neg (by omega)]

/-! ## Claim C2: inner-message round trip -/

/-- **C2 counterexample**: the claimed round trip
`parseMessage(encodeMessage(x)) == x` fails at `x = "PWR01"`:
`ISCPMessage.__str__` appends a carriage return but no EOF marker, so
`ISCPMessage.parse` fails on its own encoding. -/
theorem c2_roundtrip_counterexample :
    ISCPMessage.parse (ISCPMessage.str "PWR01") = none := by decide

/-- **C2 (amended)**: `encodeMessage` wraps the command as
`start + unit-type + command + CR` (no EOF marker), so for every command
text `x` without the EOF character, `parseMessage(encodeMessage(x))`
raises a protocol error; the round trip does hold for the EOF-terminated
framing `"!1" + x + EOF + CR` that the receiver sends. -/
theorem c2_amended_roundtrip (x : String) (h : '\x1a' ∉ x.data) :
    ISCPMessage.parse (ISCPMessage.str x) = none ∧
    ISCPMessage.parse ("!1" ++ x ++ "\x1a\r") = some x := by
  constructor
  · have hdata : (ISCPMessage.str x).data = ('!' :: '1' :: x.data) ++ ['\r'] := by
      simp [ISCPMessage.str]
    have htake : (('!' :: '1' :: x.data) ++ ['\r']).take 2 = ['!', '1'] := by
      rw [List.take_append_of_le_length (by simp)]
      rfl
    have hn1 : negGet (('!' :: '1' :: x.data) ++ ['\r']) 1 = some '\r' :=
      negGet_concat_one _ _
    rcases List.eq_nil_or_concat x.data with hnil | ⟨ys, c, hx⟩
    · obtain ⟨xd⟩ := x
      have hxd : xd = [] := hnil
      subst hxd
      decide
    · rw [List.concat_eq_append] at hx
      have hcne : c ≠ '\x1a' := fun hc => h (by rw [hx, ← hc]; simp)
      have hn2 : negGet (('!' :: '1' :: x.data) ++ ['\r']) 2 = some c := by
        rw [show (2 : Nat) = 1 + 1 from rfl, negGet_concat_succ _ _ 1 le_rfl, hx,
          show '!' :: '1' :: (ys ++ [c]) = ('!' :: '1' :: ys) ++ [c] by simp,
          negGet_concat_one]
      by_cases hct : c = '\n' ∨ c = '\r'
      · have hk : eofOffsetK (('!' :: '1' :: x.data) ++ ['\r']) '\r' = 3 := by
          unfold eofOffsetK
          rw [if_pos (by norm_num), hn2]
          simp [hct]
        have hn3 : negGet (('!' :: '1' :: x.data) ++ ['\r']) 3 =
            negGet ('!' :: '1' :: ys) 1 := by
          rw [show (3 : Nat) = 2 + 1 from rfl, negGet_concat_succ _ _ 2 (by omega), hx,
            show '!' :: '1' :: (ys ++ [c]) = ('!' :: '1' :: ys) ++ [c] by simp,
            show (2 : Nat) = 1 + 1 from rfl, negGet_concat_succ _ _ 1 le_rfl]
        rcases List.eq_nil_or_concat ys with hynil | ⟨zs, d, hy⟩
        · subst hynil
          have hn3' : negGet (('!' :: '1' :: x.data) ++ ['\r']) 3 = some '1' := by
            rw [hn3]; decide
          simp only [ISCPMessage.parse, hdata, htake, hn1, hk, hn3']
          simp
        · rw [List.concat_eq_append] at hy
          have hdne : d ≠ '\x1a' := fun hdc => h (by rw [hx, hy, ← hdc]; simp)
          have hn3' : negGet (('!' :: '1' :: x.data) ++ ['\r']) 3 = some d := by
            rw [hn3, hy, show '!' :: '1' :: (zs ++ [d]) = ('!' :: '1' :: zs) ++ [d] by simp,
              negGet_concat_one]
          simp only [ISCPMessage.parse, hdata, htake, hn1, hk, hn3']
          simp [hdne]
      · have hk : eofOffsetK (('!' :: '1' :: x.data) ++ ['\r']) '\r' = 2 := by
          unfold eofOffsetK
          rw [if_pos (by norm_num), hn2]
          simp [hct]
        simp only [ISCPMessage.parse, hdata, htake, hn1, hk, hn2]
        simp [hcne]
  · have hdata : ("!1" ++ x ++ "\x1a\r").data =
        (('!' :: '1' :: x.data) ++ ['\x1a']) ++ ['\r'] := by simp
    have htake : ((('!' :: '1' :: x.data) ++ ['\x1a']) ++ ['\r']).take 2 = ['!', '1'] := by
      rw [List.take_append_of_le_length (by simp),
        List.take_append_of_le_length (by simp)]
      rfl
    have hn1 : negGet ((('!' :: '1' :: x.data) ++ ['\x1a']) ++ ['\r']) 1 = some '\r' :=
      negGet_concat_one _ _
    have hn2 : negGet ((('!' :: '1' :: x.data) ++ ['\x1a']) ++ ['\r']) 2 = some '\x1a' := by
      rw [show (2 : Nat) = 1 + 1 from rfl, negGet_concat_succ _ _ 1 le_rfl,
        negGet_concat_one]
    have hk : eofOffsetK ((('!' :: '1' :: x.data) ++ ['\x1a']) ++ ['\r']) '\r' = 2 := by
      unfold eofOffsetK
      rw [if_pos (by norm_num), hn2]
      simp
    have hlen : ((('!' :: '1' :: x.data) ++ ['\x1a']) ++ ['\r']).length - 2 =
        ('!' :: '1' :: x.data).length := by simp
    have hres : (((('!' :: '1' :: x.data) ++ ['\x1a']) ++ ['\r']).take
        (('!' :: '1' :: x.data).length)).drop 2 = x.data := by
      rw [List.take_append_of_le_length (by simp),
        List.take_append_of_le_length (le_refl _), List.take_length]
      rfl
    simp only [ISCPMessage.parse, hdata, htake, hn1, hk, hn2, hlen, hres]
    rfl

/-- **C2 witness**: the amended round trip evaluated at `x = "PWR01"`. -/
theorem c2_amended_roundtrip_witness :
    ISCPMessage.parse (ISCPMessage.str "PWR01") = none ∧
    ISCPMessage.parse ("!1" ++ "PWR01" ++ "\x1a\r") = some "PWR01" :=
  c2_amended_roundtrip "PWR01" (by decide)

/-! ## Claim C3: free-text numeric range resolution -/

/-- **C3**: `resolveToWire("zone2.volume=66") == "ZVL42"` — the purely
numeric argument misses every alias of `VALUE_MAPPINGS["zone2"]["ZVL"]`,
matches the first declared range containing 66 in registration order (the
`(0, 80)` interval), and is hex-encoded uppercase and zero-padded to two
digits; an argument contained in no declared range (999) fails with the
invalid-argument `ValueError`. -/
theorem c3_zone2_volume_resolution :
    command_to_iscp registry "zone2.volume=66" none none = .ok "ZVL42" ∧
    command_to_iscp registry "zone2.volume=999" none none = .error .invalidArgument := by
  constructor <;> rfl

/-! ## Claim C4: zone defaulting in the pre-split form -/

/-- **C4 (code bug)**: in the pre-split form with the zone omitted, the
zone does *not* default to `"main"`: the free-text parsing branch is
skipped because `arguments` is present, `zone` stays `None`, and the
check `zone in COMMANDS` (testing the raw `zone`, not the
`ZONE_MAPPINGS`-mapped group, although `ZONE_MAPPINGS` maps `None` to
`"main"`) raises the invalid-zone `ValueError` — contradicting the
function's own docstring (`command('power', 'on')`, "if no zone is given,
the main zone is assumed").  With the zone passed explicitly the same
call yields `"PWR01"`. -/
theorem c4_presplit_zone_omitted_raises :
    command_to_iscp registry "power" (some ["on"]) none = .error .invalidZone ∧
    command_to_iscp registry "power" (some ["on"]) (some "main") = .ok "PWR01" := by
  constructor <;> rfl

/-! ## Claim C9: inbound wire resolution -/

/-- **C9**: `resolveFromWire("PWR01") == ("main", "system-power", "on")`:
zones are scanned in the fixed `COMMANDS` order (main first), the first
three characters `PWR` match a mnemonic of the main zone, and the
remainder `01` matches its declared wire value named `on`. -/
theorem c9_resolve_from_wire :
    iscp_to_command registry "PWR01" = some ("main", "system-power", IValue.str "on") := rfl

/-! ## Claim C10: resolution reads only the first argument -/

theorem resolveArgs_cons (reg : Registry) (g pre a : String) (t : List String) :
    resolveArgs reg g pre (some (a :: t)) = resolveArgs reg g pre (some [a]) := rfl

/-- **C10**: outbound command resolution depends only on the first
element of the argument list: for every zone and command, two argument
lists agreeing on their head resolve identically (same wire string or
same error) — the tail is never inspected. -/
theorem c10_only_first_argument (zone : Option String) (cmd a : String)
    (t₁ t₂ : List String) :
    command_to_iscp registry cmd (some (a :: t₁)) zone =
      command_to_iscp registry cmd (some (a :: t₂)) zone := by
  show resolve registry zone cmd (some (a :: t₁)) = resolve registry zone cmd (some (a :: t₂))
  simp only [resolve, resolveArgs_cons]

/-! ## Claim C5: backoff interval sequence -/

/-- **C5 counterexample**: starting from interval 1 with multiplier 1.5
and cap 10, three consecutive connect failures do *not* sleep
`1, 1.5, 2.25`: `_increase_retry_interval` runs before the sleep, so the
first slept interval is already 1.5. -/
theorem c5_backoff_counterexample :
    (reconnect_sleeps 10 1 [false, false, false]).1 ≠ [1, 3 / 2, 9 / 4] := by
  norm_num [reconnect_sleeps, increase_retry_interval, min_def]

/-- **C5 (amended)**: three consecutive failures sleep `1.5, 2.25, 3.375`
(the multiplier is applied before each sleep), a fourth sleeps `5.0625`;
a successful connect at any point resets the retry interval to 1. -/
theorem c5_amended_backoff :
    (reconnect_sleeps 10 1 [false, false, false]).1 = [3 / 2, 9 / 4, 27 / 8] ∧
    (reconnect_sleeps 10 1 [false, false, false, false]).1 =
      [3 / 2, 9 / 4, 27 / 8, 81 / 16] ∧
    (∀ (maxI r : ℚ) (rest : List Bool), reconnect_sleeps maxI r (true :: rest) = ([], 1, true)) ∧
    (∀ (maxI r : ℚ) (outs : List Bool), true ∈ outs →
      (reconnect_sleeps maxI r outs).2.1 = 1) := by
  refine ⟨?_, ?_, fun maxI r rest => rfl, fun maxI r outs hmem => ?_⟩
  · norm_num [reconnect_sleeps, increase_retry_interval, min_def]
  · norm_num [reconnect_sleeps, increase_retry_interval, min_def]
  · induction outs generalizing r with
    | nil => simp at hmem
    | cons b rest ih =>
      cases b with
      | true => rfl
      | false =>
        have hmem' : true ∈ rest := by simpa using hmem
        exact ih (increase_retry_interval maxI r) hmem'

/-- **C5 witness**: the reset clause evaluated at a failure followed by a
success. -/
theorem c5_amended_backoff_witness : (reconnect_sleeps 10 1 [false, true]).2.1 = 1 :=
  c5_amended_backoff.2.2.2 10 1 [false, true] (by simp)

/-! ## Claim C6: backoff invariant -/

/-- **C6**: across every transition of the reconnect state machine (with
a cap of at least the minimum interval, and the interval within
`[1, maxRetryInterval]` as the loop maintains), the retry interval is set
to its minimum 1 only by a successful connect; a failed attempt only
grows it — multiplied by 1.5 and capped — never below its previous
value, and keeps it within the invariant bounds. -/
theorem c6_backoff_invariant (maxI r : ℚ) (b : Bool) (hmax : 1 ≤ maxI)
    (h1 : 1 ≤ r) (h2 : r ≤ maxI) :
    1 ≤ conn_step maxI r b ∧ conn_step maxI r b ≤ maxI ∧
    (b = false → r ≤ conn_step maxI r b) ∧
    (b = true → conn_step maxI r b = 1) := by
  cases b with
  | true =>
    exact ⟨le_refl 1, hmax, fun hc => absurd hc (by decide), fun _ => rfl⟩
  | false =>
    refine ⟨le_min hmax (by linarith), min_le_left _ _,
      fun _ => le_min h2 (by linarith), fun hc => absurd hc (by decide)⟩

/-- **C6 witness**: the invariant evaluated at cap 10, interval 1, one
failed attempt. -/
theorem c6_backoff_invariant_witness :
    1 ≤ conn_step 10 1 false ∧ conn_step 10 1 false ≤ 10 ∧
    (false = false → (1 : ℚ) ≤ conn_step 10 1 false) ∧
    (false = true → conn_step 10 1 false = 1) :=
  c6_backoff_invariant 10 1 false (by norm_num) (by norm_num) (by norm_num)

/-! ## Claim C1: buffer reassembly past a corrupt frame -/

/-- Unfolding of one complete-frame step of `_assemble_buffer`: when the
buffer starts with a complete frame `f` (valid header, body length
matching `data_size`), the frame is consumed, decoded inside the guarded
`try`, and processing continues on `rest`. -/
theorem assemble_aux_frame (reg : Registry) (fuel : Nat) (f rest : List Nat) (hd : Header)
    (hph : eISCPPacket.parse_header (f.take 16) = some hd)
    (hlen : f.length = 16 + hd.data_size) :
    assemble_buffer_aux reg (fuel + 1) (f ++ rest) =
      match decodeFrame reg ((f.drop 16).take hd.data_size),
            (if rest.length = 0 then (⟨[], 0, false, rest⟩ : AsmResult)
             else assemble_buffer_aux reg fuel rest) with
      | some m, t => ⟨m :: t.events, t.errors, t.raised, t.buffer⟩
      | none, t => ⟨t.events, t.errors + 1, t.raised, t.buffer⟩ := by
  have h16 : 16 ≤ f.length := by omega
  have hTot : 16 ≤ (f ++ rest).length := by
    rw [List.length_append]; omega
  have htake : (f ++ rest).take 16 = f.take 16 := List.take_append_of_le_length h16
  have hdata : ((f ++ rest).drop 16).take hd.data_size = (f.drop 16).take hd.data_size := by
    rw [List.drop_append_of_le_length h16,
      List.take_append_of_le_length (by rw [List.length_drop]; omega)]
  have hrest : (f ++ rest).drop (16 + hd.data_size) = rest := by
    rw [← hlen]; exact List.drop_left f rest
  have hcond : hd.data_size ≤ (f ++ rest).length - 16 := by
    rw [List.length_append]; omega
  simp only [assemble_buffer_aux, if_pos hTot, htake, hph, if_pos hcond, hdata, hrest]
  cases decodeFrame reg ((f.drop 16).take hd.data_size) <;> rfl

/-- The single-complete-frame case of the step lemma. -/
theorem assemble_aux_single (reg : Registry) (fuel : Nat) (f : List Nat) (hd : Header)
    (hph : eISCPPacket.parse_header (f.take 16) = some hd)
    (hlen : f.length = 16 + hd.data_size) :
    assemble_buffer_aux reg (fuel + 1) f =
      match decodeFrame reg ((f.drop 16).take hd.data_size) with
      | some m => ⟨[m], 0, false, []⟩
      | none => ⟨[], 1, false, []⟩ := by
  have h := assemble_aux_frame reg fuel f [] hd hph hlen
  rw [List.append_nil] at h
  rw [h]
  cases decodeFrame reg ((f.drop 16).take hd.data_size) <;> simp

/-- **C1 counterexample**: a chunk holding one corrupt frame (bad magic
in the 16-byte header) followed by one complete valid frame yields *no*
update event and *no* logged per-frame error: `parse_header` is called
outside the guarded `try`, so its failed `assert` raises out of
`_assemble_buffer`, the buffer is left unconsumed, and the valid frame is
never extracted. -/
theorem c1_bad_magic_counterexample :
    assemble_buffer registry (badMagicFrame ++ goodFrame) =
      ⟨[], 0, true, badMagicFrame ++ goodFrame⟩ := by decide

/-- **C1 (amended)**: only a frame that fails *inside* the guarded decode
(valid header, undecodable body) is skipped without blocking later
frames: such a frame followed by one complete valid frame yields exactly
one update event (for the valid frame) and one logged error, consuming
the whole buffer; a bad-magic header instead raises and halts assembly. -/
theorem c1_amended_bad_body_skipped (f1 f2 : List Nat) (hd1 hd2 : Header) (m : Update)
    (h1 : eISCPPacket.parse_header (f1.take 16) = some hd1)
    (h1len : f1.length = 16 + hd1.data_size)
    (h1bad : decodeFrame registry ((f1.drop 16).take hd1.data_size) = none)
    (h2 : eISCPPacket.parse_header (f2.take 16) = some hd2)
    (h2len : f2.length = 16 + hd2.data_size)
    (h2good : decodeFrame registry ((f2.drop 16).take hd2.data_size) = some m) :
    assemble_buffer registry (f1 ++ f2) = ⟨[m], 1, false, []⟩ := by
  have hfl : (f1 ++ f2).length = (f1.length + f2.length - 1) + 1 := by
    rw [List.length_append]; omega
  unfold assemble_buffer
  rw [hfl, assemble_aux_frame registry _ f1 f2 hd1 h1 h1len, h1bad]
  have hne : ¬ f2.length = 0 := by omega
  rw [if_neg hne]
  have hf2 : f1.length + f2.length - 1 = (f1.length + f2.length - 2) + 1 := by omega
  rw [hf2, assemble_aux_single registry _ f2 hd2 h2 h2len, h2good]

/-- **C1 witness**: the amended statement evaluated on a valid-header
frame with body `"XXX"` followed by the `"!1PWR01" + EOF` frame. -/
theorem c1_amended_bad_body_skipped_witness :
    assemble_buffer registry (badBodyFrame ++ goodFrame) =
      ⟨[("main", "system-power", IValue.str "on")], 1, false, []⟩ :=
  c1_amended_bad_body_skipped badBodyFrame goodFrame
    ⟨"ISCP", 16, 3, 1, "\x00\x00\x00"⟩ ⟨"ISCP", 16, 8, 1, "\x00\x00\x00"⟩
    ("main", "system-power", IValue.str "on")
    (by decide) (by decide) (by decide) (by decide) (by decide) (by decide)

/-! ## Claim C7: discovery dedup -/

theorem countId_append (i : String) (a b : List Discovered) :
    countId i (a ++ b) = countId i a + countId i b := by
  simp [countId, List.filter_append]

theorem countId_nil (i : String) : countId i [] = 0 := rfl

theorem countId_cons (i : String) (d : Discovered) (l : List Discovered) :
    countId i (d :: l) = (if d.identifier = i then 1 else 0) + countId i l := by
  by_cases hh : d.identifier = i <;> simp [countId, List.filter_cons, hh, Nat.add_comm]

theorem datagram_received_of_unparsed (st : List String) (data : List Nat)
    (addr : String × Nat) (h : eISCPPacket.parse_info data = none) :
    datagram_received st data addr = (st, none) := by
  unfold datagram_received
  rw [h]

theorem datagram_received_of_seen (st : List String) (data : List Nat)
    (addr : String × Nat) (info : DeviceInfo)
    (h : eISCPPacket.parse_info data = some info) (hm : info.identifier ∈ st) :
    datagram_received st data addr = (st, none) := by
  unfold datagram_received
  rw [h]
  simp [hm]

theorem datagram_received_of_new (st : List String) (data : List Nat)
    (addr : String × Nat) (info : DeviceInfo)
    (h : eISCPPacket.parse_info data = some info) (hm : info.identifier ∉ st) :
    datagram_received st data addr =
      (st ++ [info.identifier],
       some ⟨addr.1, pyToNat info.iscp_port, info.model_name, info.identifier⟩) := by
  unfold datagram_received
  rw [h]
  simp [hm]

/-- Per-protocol dedup bound: one `DiscoveryProtocol` instance never
reports a given identifier more than once, and not at all once the
identifier is on its `discovered` list. -/
theorem runProtocol_countId (i : String) (events : List (List Nat × String × Nat)) :
    ∀ st : List String,
      countId i (runProtocol st events).2 ≤ if i ∈ st then 0 else 1 := by
  induction events with
  | nil =>
    intro st
    simp [runProtocol, countId]
  | cons e rest ih =>
    intro st
    obtain ⟨data, addr⟩ := e
    cases hpi : eISCPPacket.parse_info data with
    | none =>
      simp only [runProtocol, datagram_received_of_unparsed st data addr hpi]
      simpa using ih st
    | some info =>
      by_cases hm : info.identifier ∈ st
      · simp only [runProtocol, datagram_received_of_seen st data addr info hpi hm]
        simpa using ih st
      · simp only [runProtocol, datagram_received_of_new st data addr info hpi hm,
          countId_append, Option.toList_some, countId_cons, countId_nil]
        have htail := ih (st ++ [info.identifier])
        by_cases hii : info.identifier = i
        · have hst : i ∉ st := fun hin => hm (hii ▸ hin)
          rw [if_neg hst, if_pos hii]
          rw [if_pos (by simp [hii])] at htail
          omega
        · rw [if_neg hii]
          by_cases hst : i ∈ st
          · rw [if_pos hst]
            rw [if_pos (by simp [hst])] at htail
            omega
          · rw [if_neg hst]
            rw [if_neg (by
              simp only [List.mem_append, List.mem_singleton]
              rintro (hc | hc)
              · exact hst hc
              · exact hii hc.symm)] at htail
            omega

/-- **C7 counterexample**: the `discovered` dedup list lives on each
`DiscoveryProtocol` instance, and `Connection.discover` creates one
instance per network interface — so the same identifier received on two
different interfaces triggers the discovered callback twice in one
session, not at most once. -/
theorem c7_two_interfaces_counterexample :
    countId "0009B04AAAA1"
      (runSession [[], []]
        [(0, discoveryReply, "10.0.0.3", 60128),
         (1, discoveryReply, "10.0.0.9", 60128)]) = 2 := by decide

/-- **C7 (amended)**: within one discovery session, a given identifier
triggers the callback at most once *per interface listener* (per
`DiscoveryProtocol` instance), regardless of how many UDP replies — even
from different source addresses — that listener receives; listeners on
different interfaces may each report it once. -/
theorem c7_amended_per_listener_dedup :
    (∀ (events : List (List Nat × String × Nat)) (i : String),
        countId i (runProtocol [] events).2 ≤ 1) ∧
    countId "0009B04AAAA1"
      (runProtocol []
        [(discoveryReply, "10.0.0.3", 60128),
         (discoveryReply, "10.0.0.9", 60128)]).2 = 1 := by
  constructor
  · intro events i
    simpa using runProtocol_countId i events []
  · decide

/-! ## Claim C8: header data-size round trip -/

/-- **C8 counterexample**: `encodePacket` writes `len(iscp_message)` — a
*character* count — into the `data_size` field, not the UTF-8 byte
length: for the one-character message `"é"` the parsed `data_size` is 1
while the UTF-8 payload is 2 bytes long. -/
theorem c8_data_size_counterexample :
    (eISCPPacket.parse_header ((eISCPPacket.bytes "é").take 16)).map Header.data_size ≠
      some (utf8Encode "é").length := by decide

/-- **C8 (amended)**: the parsed `data_size` of an encoded packet's
header equals the *character count* of the message (`len()` of the
Python `str`), which coincides with the UTF-8 byte length only for
ASCII messages. -/
theorem c8_amended_header_data_size (msg : String) (h : msg.length < 2 ^ 32) :
    (eISCPPacket.parse_header ((eISCPPacket.bytes msg).take 16)).map Header.data_size =
      some msg.length := by
  have htake : (eISCPPacket.bytes msg).take 16 =
      [0x49, 0x53, 0x43, 0x50] ++ u32be 16 ++ u32be msg.length ++
        [0x01] ++ [0x00, 0x00, 0x00] :=
    List.take_left' (by simp [u32be])
  rw [htake]
  have hmagic : utf8DecodeStrictStr [0x49, 0x53, 0x43, 0x50] = some "ISCP" := rfl
  have hres : utf8DecodeStrictStr [0x00, 0x00, 0x00] = some "\x00\x00\x00" := rfl
  simp only [u32be, List.cons_append, List.nil_append]
  norm_num
  simp only [eISCPPacket.parse_header, hmagic, hres]
  norm_num [parseU32be]
  omega

/-- **C8 witness**: the amended header round trip at `msg = "PWR01"`. -/
theorem c8_amended_header_data_size_witness :
    (eISCPPacket.parse_header ((eISCPPacket.bytes "PWR01").take 16)).map Header.data_size =
      some (String.length "PWR01") :=
  c8_amended_header_data_size "PWR01" (by decide)

end Onkyo
